import Mathlib

/-!
# Verification of the multi-agent travel planner's streaming core

Shallow embedding of the repository's streaming protocol adapters and the
travel-system graph wrapper, together with proofs about the wire-event
sequences they emit.

Embedded sources:
* `src/backend/app/utils/langgraph_vercel_adapter.py`
  (`LangGraphToVercelAdapter`, its `stream` / `_handle_node_update` /
  `_handle_interrupt` / `_handle_tool_calls` / `_handle_tool_result`);
* `src/backend/app/utils/vercel_stream.py` (`stream_langgraph_to_vercel`);
* `src/backend/app/agents/travel_system_graph.py`
  (`requirements_subgraph_node`);
* `src/backend/app/api/services/travel_system_streaming_service.py`
  (`stream_travel_system_chat`);
* `src/backend/app/agents/tools/flight_tools.py`
  (`search_flight_availability`).

Modelling conventions:
* Python dict/JSON values are the inductive `Val`; Python truthiness is
  `Val.truthy`.
* `uuid.uuid4()` / `_create_message_id()` are modelled as a fresh-token
  supply: a `Nat` counter threaded through the adapter, each draw yielding
  `StreamId.fresh n` for a never-before-used `n`.  The literal stream id
  `"text-1"` of `vercel_stream.py` is `StreamId.fixed "text-1"`.
* Async generators are modelled as pure functions from the engine's update
  sequence (a list) to the emitted wire-event list; an engine exception
  raised during iteration is modelled by the `RunInput.errorAfter` /
  `VsRun.err` constructors (the exception fires after a prefix of updates
  has been translated).
* SSE serialisation (`data: {...}\n\n` framing) is not modelled; the
  `[DONE]` sentinel line is the event `WireEvent.done`.
-/

namespace TravelPlanner

/-- JSON-like values as passed around in the Python code (tool arguments,
tool outputs, the `requirements` / `itinerary` / `bookings` state fields). -/
inductive Val : Type where
  | vnull : Val
  | vbool : Bool → Val
  | vnum : Int → Val
  | vstr : String → Val
  | vlist : List Val → Val
  | vobj : List (String × Val) → Val

/-- Python truthiness of a `Val` (`if state["requirements"]:` etc.). -/
def Val.truthy : Val → Bool
  | .vnull => false
  | .vbool b => b
  | .vnum n => n != 0
  | .vstr s => s != ""
  | .vlist l => !l.isEmpty
  | .vobj l => !l.isEmpty

/-- One entry of an `AIMessage.tool_calls` list.  Fields mirror the dict
accesses in `_handle_tool_calls`: `tool_call.get("id")`,
`tool_call.get("name", "unknown_tool")`, `tool_call.get("args", {})` —
absent keys are `none`. -/
structure ToolCallRec : Type where
  id : Option String
  name : Option String
  args : Option Val

/-- LangChain messages as the adapter distinguishes them:
`ToolMessage` (always has `tool_call_id` and `content`), `AIMessage`
(content, optional `name`, `tool_calls`), and other `BaseMessage`s
(`HumanMessage` etc.), of which the adapter only checks the type. -/
inductive Message : Type where
  | human : String → Message
  | ai : String → Option String → List ToolCallRec → Message
  | tool : String → String → Message

/-- A LangGraph `Interrupt` object as the adapters read it: only its
`.value` attribute is used, always via `str(...)`, so we keep the
stringified value. -/
structure InterruptObj : Type where
  value : String
deriving DecidableEq, Repr

/-- One state-update chunk from `graph.astream(..., stream_mode="updates")`.
`Option` encodes key presence (`"messages" in state` etc.). -/
structure StateUpdate : Type where
  interrupt : Option (List InterruptObj) := none
  messages : Option (List Message) := none
  requirements : Option Val := none
  itinerary : Option Val := none
  bookings : Option Val := none

/-- Identifier carried by `start` / `text-*` wire events: either the n-th
draw from the fresh uuid supply, or a literal string id. -/
inductive StreamId : Type where
  | fresh : Nat → StreamId
  | fixed : String → StreamId
deriving DecidableEq, Repr

/-- Wire events of the Vercel data-stream protocol as the repository emits
them.  `finishMeta` is `vercel_stream.py`'s
`{"type":"finish","messageMetadata":{interrupt, interruptMessage}}` variant;
`finish (some "interrupt")` is the adapter's
`{"type":"finish","finishReason":"interrupt"}`.  `done` is the literal
`data: [DONE]` sentinel line. -/
inductive WireEvent : Type where
  | start : StreamId → WireEvent
  | textStart : StreamId → WireEvent
  | textDelta : StreamId → String → WireEvent
  | textEnd : StreamId → WireEvent
  | toolInputStart : String → String → WireEvent
  | toolInputAvailable : String → String → Val → WireEvent
  | toolOutputAvailable : String → String → WireEvent
  | dataEvent : String → Val → WireEvent
  | finish : Option String → WireEvent
  | finishMeta : Bool → String → WireEvent
  | errorEvent : String → WireEvent
  | done : WireEvent

/-! ## `LangGraphToVercelAdapter` (src/backend/app/utils/langgraph_vercel_adapter.py) -/

/-- Embeds `_handle_interrupt`: extract `str(interrupt_list[0].value)` (empty
string when the list is empty, matching `state_update.get("__interrupt__",
[])` followed by `if interrupt_list:`); if the message is truthy, emit a
`text-start`/`text-delta`/`text-end` block under a fresh message id; then
always emit `finish{finishReason:"interrupt"}`. -/
def handleInterrupt (interruptList : List InterruptObj) (ctr : Nat) :
    List WireEvent × Nat :=
  let interruptMessage :=
    match interruptList with
    | [] => ""
    | o :: _ => o.value
  if interruptMessage != "" then
    let messageId := StreamId.fresh ctr
    ([.textStart messageId, .textDelta messageId interruptMessage,
      .textEnd messageId, .finish (some "interrupt")], ctr + 1)
  else
    ([.finish (some "interrupt")], ctr)

/-- Resolved `toolCallId` of one tool call:
`tool_call.get("id") or str(uuid.uuid4())` — the uuid fallback fires when
the key is absent or its value is falsy, and draws from the fresh supply. -/
def resolveToolCallId (tc : ToolCallRec) (ctr : Nat) : String × Nat :=
  match tc.id with
  | some s => if s != "" then (s, ctr) else (s!"uuid-{ctr}", ctr + 1)
  | none => (s!"uuid-{ctr}", ctr + 1)

/-- Resolved `toolName`: `tool_call.get("name", "unknown_tool")`. -/
def resolveToolName (tc : ToolCallRec) : String :=
  tc.name.getD "unknown_tool"

/-- Resolved `input`: `tool_call.get("args", {})`. -/
def resolveToolArgs (tc : ToolCallRec) : Val :=
  tc.args.getD (.vobj [])

/-- Embeds `_handle_tool_calls`: for each tool call in declared order, emit
`tool-input-start{toolCallId, toolName}` then
`tool-input-available{toolCallId, toolName, input}`.  (The
`if not message.tool_calls: return` guard is checked by the caller and is
also honoured here: an empty list emits nothing.) -/
def handleToolCalls (calls : List ToolCallRec) (ctr : Nat) :
    List WireEvent × Nat :=
  match calls with
  | [] => ([], ctr)
  | tc :: rest =>
      let resolved := resolveToolCallId tc ctr
      let toolName := resolveToolName tc
      let restPart := handleToolCalls rest resolved.2
      (WireEvent.toolInputStart resolved.1 toolName ::
       WireEvent.toolInputAvailable resolved.1 toolName (resolveToolArgs tc) ::
       restPart.1, restPart.2)

/-- Embeds `_handle_tool_result`: one `tool-output-available{toolCallId, output}`
from the `ToolMessage`'s `tool_call_id` and `content`. -/
def handleToolResult (toolCallId content : String) : List WireEvent :=
  [.toolOutputAvailable toolCallId content]

/-- The `text-start`/`text-delta`/`text-end` block emitted for a non-empty
`AIMessage` content, under one fresh message id (`_create_message_id`). -/
def textBlock (content : String) (ctr : Nat) : List WireEvent × Nat :=
  let messageId := StreamId.fresh ctr
  ([.textStart messageId, .textDelta messageId content, .textEnd messageId],
   ctr + 1)

/-- One `if "<field>" in state and state["<field>"]:` block: a single
`data-<field>{data}` event when the field is present and truthy. -/
def dataFieldEvents (fieldName : String) (field : Option Val) :
    List WireEvent :=
  match field with
  | some v => if v.truthy then [.dataEvent fieldName v] else []
  | none => []

/-- The three trailing field blocks of `_handle_node_update`, in source
order requirements, itinerary, bookings. -/
def dataEvents (u : StateUpdate) : List WireEvent :=
  dataFieldEvents "requirements" u.requirements ++
  dataFieldEvents "itinerary" u.itinerary ++
  dataFieldEvents "bookings" u.bookings

/-- Python's `str.strip()`: drop leading and trailing whitespace.
(Defined on the character list rather than through `String.trim`, whose
`Substring` recursions do not reduce definitionally.) -/
def pyStrip (s : String) : String :=
  String.mk
    (((s.data.dropWhile Char.isWhitespace).reverse.dropWhile
        Char.isWhitespace).reverse)

/-- Tail of the `AIMessage` branch of `_handle_node_update`: the tool-call
events when `last_message.tool_calls` is non-empty, then the text block
when `content and content.strip()` is truthy, then the data-field
events. -/
def aiMessageEvents (u : StateUpdate) (content : String)
    (toolCalls : List ToolCallRec) (ctr : Nat) : List WireEvent × Nat :=
  let toolPart :=
    if !toolCalls.isEmpty then handleToolCalls toolCalls ctr
    else ([], ctr)
  let textPart :=
    if content != "" && pyStrip content != "" then
      textBlock content toolPart.2
    else ([], toolPart.2)
  (toolPart.1 ++ textPart.1 ++ dataEvents u, textPart.2)

/-- Embeds `_handle_node_update`.  Control flow mirrors the Python: interrupt
check first (then return); else if a non-empty messages list is present,
dispatch on its last element — `ToolMessage` returns after the tool-result
event, a non-`AIMessage` returns with no events (both skipping the data
section), an `AIMessage` emits `aiMessageEvents`. -/
def handleNodeUpdate (u : StateUpdate) (ctr : Nat) : List WireEvent × Nat :=
  match u.interrupt with
  | some interruptList => handleInterrupt interruptList ctr
  | none =>
    match u.messages with
    | some messages =>
      match messages.getLast? with
      | some (.tool toolCallId content) =>
          (handleToolResult toolCallId content, ctr)
      | some (.human _) => ([], ctr)
      | some (.ai content _ toolCalls) =>
          aiMessageEvents u content toolCalls ctr
      | none => (dataEvents u, ctr)
    | none => (dataEvents u, ctr)

/-- The engine side of one `adapter.stream` call: the update chunks it
yields, with `errorAfter us msg` modelling an exception (message
`str(e) = msg`) raised after `us` have been yielded and translated. -/
inductive RunInput : Type where
  | updates : List StateUpdate → RunInput
  | errorAfter : List StateUpdate → String → RunInput

/-- Translation of a whole update sequence, threading the fresh-id
counter. -/
def processUpdates (us : List StateUpdate) (ctr : Nat) :
    List WireEvent × Nat :=
  match us with
  | [] => ([], ctr)
  | u :: rest =>
      let step := handleNodeUpdate u ctr
      let restStep := processUpdates rest step.2
      (step.1 ++ restStep.1, restStep.2)

/-- Embeds `LangGraphToVercelAdapter.stream`: translate every chunk with
`_handle_node_update`; after normal completion emit `finish{}` then the
`[DONE]` sentinel; on an engine exception emit `error{message}` and return
(no sentinel).  Note the method emits no `start` event. -/
def adapterStream (run : RunInput) (ctr : Nat) : List WireEvent :=
  match run with
  | .updates us => (processUpdates us ctr).1 ++ [.finish none, .done]
  | .errorAfter us msg => (processUpdates us ctr).1 ++ [.errorEvent msg]

/-! ## `stream_langgraph_to_vercel` (src/backend/app/utils/vercel_stream.py) -/

/-- The `stream_mode` argument (default `"messages"`). -/
inductive VsMode : Type where
  | messages : VsMode
  | values : VsMode
  | updates : VsMode
deriving DecidableEq, Repr

/-- One item yielded by `graph.astream` as `stream_langgraph_to_vercel`
sees it: a `(message, metadata)` tuple (only `message.content` is read;
`""` stands for a missing or falsy content) or a state dict. -/
inductive VsEvent : Type where
  | tup : String → VsEvent
  | dict : StateUpdate → VsEvent

/-- The engine side of one `stream_langgraph_to_vercel` call; `err` models
an exception raised by the iteration after the listed items were
consumed. -/
inductive VsRun : Type where
  | ok : List VsEvent → VsRun
  | err : List VsEvent → String → VsRun

/-- The `content` attribute of a message (every embedded message has one). -/
def Message.contentStr : Message → String
  | .human c => c
  | .ai c _ _ => c
  | .tool _ c => c

/-- The `message.type == "ai"` check of the values/updates branch. -/
def Message.isAi : Message → Bool
  | .ai _ _ _ => true
  | _ => false

/-- Interrupt-message extraction as written identically in
`stream_langgraph_to_vercel` and `requirements_subgraph_node`: head's
`str(.value)` for a non-empty list, else `str(interrupt_value)` — which
for the empty list is the literal `"[]"`. -/
def extractInterruptMessage : List InterruptObj → String
  | o :: _ => o.value
  | [] => "[]"

/-- Result of the `async for` loop of `stream_langgraph_to_vercel`: the
events emitted inside the loop and the loop-carried variables
(`text_started`, `final_state`, `interrupted`, `interrupt_message`). -/
structure VsLoopResult : Type where
  events : List WireEvent
  textStarted : Bool
  finalState : Option StateUpdate
  interrupted : Bool
  interruptMessage : String

/-- Effect of one loop iteration in `stream_langgraph_to_vercel`: events
yielded, updated `text_started`/`final_state`, whether the iteration
executed the interrupt branch's `break`, and the `interrupt_message` it
set. -/
structure VsStep : Type where
  events : List WireEvent
  textStarted : Bool
  finalState : Option StateUpdate
  breakLoop : Bool
  interruptMessage : String

/-- The `if not text_started: yield text-start; text_started = True` guard — the
guarded opening of the single `"text-1"` text stream. -/
def vsMaybeStart (textStarted : Bool) : List WireEvent :=
  if textStarted then [] else [WireEvent.textStart (.fixed "text-1")]

/-- Effect of one loop iteration of `stream_langgraph_to_vercel` on one
`astream` item: the events it yields, the updated loop variables, and
whether it executes the `break` of the interrupt branch.  The interrupt
check fires on any dict event; tuple events are handled only in
`"messages"` mode; dict events are otherwise handled only in
`"values"`/`"updates"` mode, where `final_state` is updated and the last
message's content is streamed when it is truthy and the message is an AI
message.  All text events use the constant id `"text-1"`. -/
def vsStepOf (mode : VsMode) (textStarted : Bool)
    (finalState : Option StateUpdate) : VsEvent → VsStep
  | .dict u =>
    match u.interrupt with
    | some interruptValue =>
        let msg := extractInterruptMessage interruptValue
        ⟨vsMaybeStart textStarted ++
           [WireEvent.textDelta (.fixed "text-1") msg],
         true, some u, true, msg⟩
    | none =>
      match mode with
      | .messages => ⟨[], textStarted, finalState, false, ""⟩
      | .values | .updates =>
        match (u.messages.getD []).getLast? with
        | some m =>
            if m.contentStr != "" && m.isAi then
              ⟨vsMaybeStart textStarted ++
                 [WireEvent.textDelta (.fixed "text-1") m.contentStr],
               true, some u, false, ""⟩
            else ⟨[], textStarted, some u, false, ""⟩
        | none => ⟨[], textStarted, some u, false, ""⟩
  | .tup content =>
    match mode with
    | .messages =>
        if content != "" then
          ⟨vsMaybeStart textStarted ++
             [WireEvent.textDelta (.fixed "text-1") content],
           true, finalState, false, ""⟩
        else ⟨[], textStarted, finalState, false, ""⟩
    | .values | .updates => ⟨[], textStarted, finalState, false, ""⟩

/-- The `async for event in graph.astream(...)` loop of
`stream_langgraph_to_vercel`: fold `vsStepOf` over the items, stopping at
the first step that breaks (the interrupt branch). -/
def vsLoop (mode : VsMode) (items : List VsEvent) (textStarted : Bool)
    (finalState : Option StateUpdate) : VsLoopResult :=
  match items with
  | [] => ⟨[], textStarted, finalState, false, ""⟩
  | item :: rest =>
    let s := vsStepOf mode textStarted finalState item
    if s.breakLoop then
      ⟨s.events, s.textStarted, s.finalState, true, s.interruptMessage⟩
    else
      let r := vsLoop mode rest s.textStarted s.finalState
      ⟨s.events ++ r.events, r.textStarted, r.finalState, r.interrupted,
       r.interruptMessage⟩

/-- Embeds `stream_langgraph_to_vercel`: emit `start{messageId}` (a fresh
`msg-<uuid>` — draw 0 of this call's uuid supply), run the loop, close the
text stream if it was started, emit the data-field events from the final
state unless interrupted, emit `finish` (with interrupt metadata if
interrupted), then `[DONE]`.  On an exception: events emitted so far, then
`error{message}` and `[DONE]`. -/
def vsStream (mode : VsMode) (run : VsRun) : List WireEvent :=
  match run with
  | .ok items =>
    let r := vsLoop mode items false none
    let textEndEvents :=
      if r.textStarted then [WireEvent.textEnd (.fixed "text-1")] else []
    let dataEvts :=
      if !r.interrupted then
        match r.finalState with
        | some u => dataEvents u
        | none => []
      else []
    let finishEvent :=
      if r.interrupted then WireEvent.finishMeta true r.interruptMessage
      else WireEvent.finish none
    [WireEvent.start (.fresh 0)] ++ r.events ++ textEndEvents ++ dataEvts ++
      [finishEvent, .done]
  | .err items msg =>
    let r := vsLoop mode items false none
    [WireEvent.start (.fresh 0)] ++ r.events ++ [.errorEvent msg, .done]

/-! ## `requirements_subgraph_node` (src/backend/app/agents/travel_system_graph.py)

The node code is in `src/`; the interrupt/replay mechanics it relies on
live in the external LangGraph library, so those are modelled from the
spec (§4.2): a node-level `interrupt(msg)` call halts the node on first
execution; on resume, the *entire* node body re-runs with the pending
resume values substituted, in call order, as the return values of the
`interrupt` call sites, and a call with no remaining resume value halts
the node again.  The `resumeValues` argument below is that queue (`[]` for
a first execution). -/

/-- Python `dict.get(key, default)` on a `Val` (the accessed values are dicts at
every call site; a non-dict receiver would raise in Python and is mapped
to the default here, unreached by the claims). -/
def dictGet (v : Val) (key : String) (default : Val) : Val :=
  match v with
  | .vobj fields => (fields.lookup key).getD default
  | _ => default

/-- The `str()` rendering used by the summary f-string; the accessed city
values are strings, renderings of non-string values are not modelled. -/
def Val.pyStr : Val → String
  | .vstr s => s
  | _ => ""

/-- The `RequirementsGraphState` record as built by `requirements_subgraph_node`. -/
structure RequirementsGraphStateRec : Type where
  messages : List Message
  requirementsComplete : Bool
  interruptionMessage : String
  requirements : Option Val

/-- An invocation of the nested compiled requirements graph: either
`invoke(subgraph_state, ...)` or `invoke(Command(resume=value), ...)`. -/
inductive SubInput : Type where
  | invokeState : RequirementsGraphStateRec → SubInput
  | resumeCmd : String → SubInput

/-- The dict returned by `requirements_graph.invoke`, restricted to the
keys the wrapper reads: `__interrupt__` and `requirements`. -/
structure SubResult : Type where
  interrupt : Option (List InterruptObj) := none
  requirements : Option Val := none

/-- One call made to the nested engine, recording the thread id of the
config it was given and the input. -/
structure NestedCall : Type where
  threadId : String
  input : SubInput

/-- State delta returned by a travel-system node on completion
(`None` values are `Val.vnull`). -/
structure TravelSystemDelta : Type where
  messages : List Message
  requirements : Val
  itinerary : Val
  bookings : Val

/-- Outcome of one execution of the wrapper node body: suspended at an
`interrupt(payload)` call, or completed with its returned delta. -/
inductive NodeOutcome : Type where
  | suspended : String → NodeOutcome
  | completed : TravelSystemDelta → NodeOutcome

/-- The conversational summary built after the subgraph completes. -/
def requirementsSummary (requirements : Val) : String :=
  if requirements.truthy then
    let origin :=
      (dictGet (dictGet (dictGet requirements "trip" (.vobj []))
        "origin" (.vobj [])) "city" (.vstr "your origin")).pyStr
    let destination :=
      (dictGet (dictGet (dictGet requirements "trip" (.vobj []))
        "destination" (.vobj [])) "city" (.vstr "your destination")).pyStr
    s!"Perfect! I\x27ve gathered your travel requirements for a trip from {origin} to {destination}. Let me create an itinerary for you..."
  else
    "I\x27ve gathered your travel requirements. Let me create an itinerary for you..."

/-- The completion tail of `requirements_subgraph_node`: extract
`requirements` from the subgraph result, build the summary, and return
the node's delta. -/
def subgraphCompletion (subgraphResult : SubResult) : TravelSystemDelta :=
  let requirements := subgraphResult.requirements.getD .vnull
  ⟨[.ai (requirementsSummary requirements) (some "requirements") []],
   requirements, .vnull, .vnull⟩

/-- Embeds `requirements_subgraph_node`, parameterised by the abstract nested
engine `subInvoke` and the spec-modelled resume-value queue.  Alongside
the outcome it returns the trace of nested-engine calls the execution
made, each under the derived thread id
`f"{parent_thread_id}-requirements"` (with `parent_thread_id` defaulting
to `"main-thread"` when the config has none). -/
def requirements_subgraph_node (configThreadId : Option String)
    (stateMessages : List Message) (stateRequirements : Option Val)
    (subInvoke : SubInput → SubResult) (resumeValues : List String) :
    NodeOutcome × List NestedCall :=
  let parentThreadId := configThreadId.getD "main-thread"
  let subgraphThreadId := parentThreadId ++ "-requirements"
  let subgraphState : RequirementsGraphStateRec :=
    ⟨stateMessages, false, "", stateRequirements⟩
  let firstInput := SubInput.invokeState subgraphState
  let subgraphResult := subInvoke firstInput
  let trace1 := [NestedCall.mk subgraphThreadId firstInput]
  match subgraphResult.interrupt with
  | none => (.completed (subgraphCompletion subgraphResult), trace1)
  | some interruptValue =>
    let interruptMessage := extractInterruptMessage interruptValue
    match resumeValues with
    | [] => (.suspended interruptMessage, trace1)
    | userResponse :: restResumes =>
      let secondInput := SubInput.resumeCmd userResponse
      let subgraphResult2 := subInvoke secondInput
      let trace2 := trace1 ++ [NestedCall.mk subgraphThreadId secondInput]
      match subgraphResult2.interrupt with
      | none => (.completed (subgraphCompletion subgraphResult2), trace2)
      | some interruptValue2 =>
        let interruptMessage2 := extractInterruptMessage interruptValue2
        match restResumes with
        | [] => (.suspended interruptMessage2, trace2)
        | _ :: _ =>
          -- the second interrupt() returns its resume value, which the
          -- code discards before falling through to the completion path
          (.completed (subgraphCompletion subgraphResult2), trace2)

/-! ## `stream_travel_system_chat`
(src/backend/app/api/services/travel_system_streaming_service.py) and the
engine's resume validation -/

/-- What the service hands the engine: a fresh `TravelSystemState` with
the user message, or `Command(resume=message)`. -/
inductive EngineInput : Type where
  | initialState : List Message → EngineInput
  | resumeCommand : String → EngineInput

/-- The dispatch in `stream_travel_system_chat`: `resume=True` builds
`Command(resume=message)` for the given thread id, `resume=False` builds
the initial state with the message as a `HumanMessage`.  The service
performs no validation of the thread's status itself. -/
def streamTravelSystemChatInput (message : String) (resume : Bool) :
    EngineInput :=
  if resume then .resumeCommand message
  else .initialState [.human message]

/-- Status of a thread id in the checkpoint store. -/
inductive ThreadStatus : Type where
  | running : ThreadStatus
  | suspendedAt : String → ThreadStatus
  | completed : ThreadStatus

/-- The `RunOutcome` of the engine (spec §4.1). -/
inductive RunOutcome : Type where
  | completedOutcome : Val → RunOutcome
  | suspendedOutcome : String → RunOutcome

/-- Defined errors of the engine's resume validation. -/
inductive EngineError : Type where
  | unknownThread : String → EngineError
  | threadNotSuspended : String → EngineError

/-- Modelled from the spec: the Workflow Graph Engine's `resume` entry
point (the engine is the external LangGraph library, absent from `src/`).
Spec §8: "Resume is only valid for a thread id currently in `Suspended`;
resuming a `Completed` or unknown thread id fails with a defined error,
never silently no-ops."  `continueRun` abstracts the continuation of a
legitimately suspended run. -/
def engineResume (store : List (String × ThreadStatus)) (threadId : String)
    (resumeValue : String) (continueRun : String → String → RunOutcome) :
    Except EngineError RunOutcome :=
  match store.lookup threadId with
  | none => .error (.unknownThread threadId)
  | some (.suspendedAt _) => .ok (continueRun threadId resumeValue)
  | some .running => .error (.threadNotSuspended threadId)
  | some .completed => .error (.threadNotSuspended threadId)

/-- The service call end to end: dispatch the request, then run the
engine — `execute` for a fresh run, the spec-modelled `resume` for
`resume=True`. -/
def travelSystemRun (store : List (String × ThreadStatus))
    (message threadId : String) (resume : Bool)
    (executeRun : List Message → String → RunOutcome)
    (continueRun : String → String → RunOutcome) :
    Except EngineError RunOutcome :=
  match streamTravelSystemChatInput message resume with
  | .initialState msgs => .ok (executeRun msgs threadId)
  | .resumeCommand v => engineResume store threadId v continueRun

/-! ## `search_flight_availability`
(src/backend/app/agents/tools/flight_tools.py) -/

/-- Outcome of the HTTP call in `search_flight_availability`:
a 2xx response whose json carries the listed flights, a
`requests.exceptions.RequestException` (including the `raise_for_status`
path) with `str(e)`, or any other exception. -/
inductive HttpOutcome : Type where
  | success : List Val → HttpOutcome
  | requestException : String → HttpOutcome
  | otherException : String → HttpOutcome

/-- The dict `search_flight_availability` returns (keys `available`,
`options`, and the optional `error`). -/
structure FlightSearchResult : Type where
  available : Bool
  options : List Val
  error : Option String := none

/-- Embeds `search_flight_availability`: returns the structured result for every
outcome of the capability call — failures are mapped to an error-tagged
result, never raised past the tool boundary. -/
def search_flight_availability (origin destination : String)
    (outcome : HttpOutcome) : FlightSearchResult :=
  match outcome with
  | .success flights =>
      if flights.isEmpty then ⟨false, [], none⟩
      else ⟨true, flights, none⟩
  | .requestException e => ⟨false, [], some e⟩
  | .otherException _ => ⟨false, [], some "An internal error occurred."⟩

/-! ## Helper lemmas about the emitted event shapes -/

/-- Classifier for `start`, `error` and the `[DONE]` sentinel: emitted only by the
top-level driver, never by the per-update translation.  This classifier
singles them out. -/
def WireEvent.isControl : WireEvent → Bool
  | .start _ => true
  | .errorEvent _ => true
  | .done => true
  | _ => false

/-- Classifier that is `true` exactly on `data-<field>` events. -/
def WireEvent.isData : WireEvent → Bool
  | .dataEvent _ _ => true
  | _ => false

theorem mem_handleInterrupt (l : List InterruptObj) (c : Nat) (e : WireEvent)
    (h : e ∈ (handleInterrupt l c).1) :
    e.isControl = false ∧ e.isData = false := by
  unfold handleInterrupt at h
  rcases l with _ | ⟨o, rest⟩
  · simp at h
    subst h; exact ⟨rfl, rfl⟩
  · dsimp at h
    by_cases hv : o.value = ""
    · simp [hv] at h
      subst h; exact ⟨rfl, rfl⟩
    · simp [hv] at h
      rcases h with h | h | h | h <;> subst h <;> exact ⟨rfl, rfl⟩

theorem mem_handleToolCalls (calls : List ToolCallRec) (c : Nat)
    (e : WireEvent) (h : e ∈ (handleToolCalls calls c).1) :
    e.isControl = false ∧ e.isData = false := by
  induction calls generalizing c with
  | nil => simp [handleToolCalls] at h
  | cons tc rest ih =>
      unfold handleToolCalls at h
      simp at h
      rcases h with h | h | h
      · subst h; exact ⟨rfl, rfl⟩
      · subst h; exact ⟨rfl, rfl⟩
      · exact ih _ h

theorem mem_textBlock (s : String) (c : Nat) (e : WireEvent)
    (h : e ∈ (textBlock s c).1) : e.isControl = false ∧ e.isData = false := by
  unfold textBlock at h
  simp at h
  rcases h with h | h | h <;> subst h <;> exact ⟨rfl, rfl⟩

theorem mem_dataFieldEvents (fieldName : String) (field : Option Val)
    (e : WireEvent) (h : e ∈ dataFieldEvents fieldName field) :
    e.isControl = false ∧ e.isData = true := by
  rcases field with _ | v
  · simp [dataFieldEvents] at h
  · by_cases hv : v.truthy = true
    · simp [dataFieldEvents, hv] at h
      subst h; exact ⟨rfl, rfl⟩
    · simp [dataFieldEvents, hv] at h

theorem mem_dataEvents (u : StateUpdate) (e : WireEvent)
    (h : e ∈ dataEvents u) : e.isControl = false ∧ e.isData = true := by
  unfold dataEvents at h
  rcases List.mem_append.mp h with h' | h'
  · rcases List.mem_append.mp h' with h'' | h''
    · exact mem_dataFieldEvents _ _ _ h''
    · exact mem_dataFieldEvents _ _ _ h''
  · exact mem_dataFieldEvents _ _ _ h'

theorem mem_ite_pair {p : Prop} [Decidable p] {a b : List WireEvent × Nat}
    {e : WireEvent} (h : e ∈ (if p then a else b).1) :
    e ∈ a.1 ∨ e ∈ b.1 := by
  split at h
  · exact Or.inl h
  · exact Or.inr h

theorem mem_aiMessageEvents (u : StateUpdate) (content : String)
    (toolCalls : List ToolCallRec) (c : Nat) (e : WireEvent)
    (h : e ∈ (aiMessageEvents u content toolCalls c).1) :
    e.isControl = false := by
  unfold aiMessageEvents at h
  dsimp only at h
  rcases List.mem_append.mp h with h' | h'
  · rcases List.mem_append.mp h' with h'' | h''
    · rcases mem_ite_pair h'' with h3 | h3
      · exact (mem_handleToolCalls _ _ _ h3).1
      · simp at h3
    · rcases mem_ite_pair h'' with h3 | h3
      · exact (mem_textBlock _ _ _ h3).1
      · simp at h3
  · exact (mem_dataEvents _ _ h').1

theorem mem_handleNodeUpdate (u : StateUpdate) (c : Nat) (e : WireEvent)
    (h : e ∈ (handleNodeUpdate u c).1) : e.isControl = false := by
  unfold handleNodeUpdate at h
  rcases hi : u.interrupt with _ | il <;> rw [hi] at h <;>
    try dsimp only at h
  · rcases hm : u.messages with _ | ms <;> rw [hm] at h <;>
      try dsimp only at h
    · exact (mem_dataEvents u e h).1
    · rcases hl : ms.getLast? with _ | m <;> rw [hl] at h <;>
        try dsimp only at h
      · exact (mem_dataEvents u e h).1
      · rcases m with mc | ⟨content, name, calls⟩ | ⟨tid, out⟩ <;>
          try dsimp only at h
        · simp at h
        · exact mem_aiMessageEvents u content calls c e h
        · simp [handleToolResult] at h; subst h; rfl
  · exact (mem_handleInterrupt il c e h).1

theorem mem_processUpdates (us : List StateUpdate) (c : Nat) (e : WireEvent)
    (h : e ∈ (processUpdates us c).1) : e.isControl = false := by
  induction us generalizing c with
  | nil => simp [processUpdates] at h
  | cons u rest ih =>
      unfold processUpdates at h
      dsimp only at h
      rcases List.mem_append.mp h with h' | h'
      · exact mem_handleNodeUpdate u c e h'
      · exact ih _ h'

theorem mem_vsMaybeStart (started : Bool) (e : WireEvent)
    (h : e ∈ vsMaybeStart started) : e = .textStart (.fixed "text-1") := by
  rcases started with _ | _ <;> simp [vsMaybeStart] at h
  exact h

theorem mem_vsStepOf_events (mode : VsMode) (started : Bool)
    (fs : Option StateUpdate) (item : VsEvent) (e : WireEvent)
    (h : e ∈ (vsStepOf mode started fs item).events) :
    (∃ i, e = .textStart i) ∨ ∃ i s, e = .textDelta i s := by
  rcases item with content | u
  · unfold vsStepOf at h
    dsimp only at h
    rcases mode with _ | _ | _ <;> try dsimp at h
    · split at h <;> try dsimp at h
      · rcases List.mem_append.mp h with h' | h'
        · exact Or.inl ⟨_, mem_vsMaybeStart _ _ h'⟩
        · simp at h'; subst h'; exact Or.inr ⟨_, _, rfl⟩
      · simp at h
    · simp at h
    · simp at h
  · unfold vsStepOf at h
    dsimp only at h
    rcases hiu : u.interrupt with _ | iv <;> rw [hiu] at h <;>
      try dsimp at h
    · rcases mode with _ | _ | _ <;> try dsimp at h
      · simp at h
      all_goals {
        rcases hl : (u.messages.getD []).getLast? with _ | m <;>
          rw [hl] at h <;> try dsimp at h
        · simp at h
        · split at h <;> try dsimp at h
          · rcases List.mem_append.mp h with h' | h'
            · exact Or.inl ⟨_, mem_vsMaybeStart _ _ h'⟩
            · simp at h'; subst h'; exact Or.inr ⟨_, _, rfl⟩
          · simp at h }
    · rcases List.mem_append.mp h with h' | h'
      · exact Or.inl ⟨_, mem_vsMaybeStart _ _ h'⟩
      · simp at h'; subst h'; exact Or.inr ⟨_, _, rfl⟩

theorem mem_vsLoop_events (mode : VsMode) (items : List VsEvent)
    (started : Bool) (fs : Option StateUpdate) (e : WireEvent)
    (h : e ∈ (vsLoop mode items started fs).events) :
    (∃ i, e = .textStart i) ∨ ∃ i s, e = .textDelta i s := by
  induction items generalizing started fs with
  | nil => simp [vsLoop] at h
  | cons item rest ih =>
      unfold vsLoop at h
      dsimp only at h
      split at h <;> dsimp at h
      · exact mem_vsStepOf_events mode started fs item e h
      · rcases List.mem_append.mp h with h' | h'
        · exact mem_vsStepOf_events mode started fs item e h'
        · exact ih _ _ h'

/-! ## Claim theorems -/

/-- C2: the claim says every run of the adapter begins with a
`start{messageId}` event, and the repository's own unit test
(`test_adapter_stream_basic`) asserts the first emitted event is a
`start` event — but `LangGraphToVercelAdapter.stream` never emits one:
no event of kind `start` occurs anywhere in its output, for any run.
(The older `vercel_stream.stream_langgraph_to_vercel` generator does emit
it, see `vsStream`.) -/
theorem adapter_stream_never_emits_start :
    ∀ (run : RunInput) (ctr : Nat) (messageId : StreamId),
      WireEvent.start messageId ∉ adapterStream run ctr := by
  intro run ctr messageId h
  rcases run with us | ⟨us, msg⟩ <;> unfold adapterStream at h <;>
    rcases List.mem_append.mp h with h' | h'
  · have := mem_processUpdates us ctr _ h'
    simp [WireEvent.isControl] at this
  · simp at h'
  · have := mem_processUpdates us ctr _ h'
    simp [WireEvent.isControl] at this
  · simp at h'

/-- C3 counterexample: for an engine error raised before any update (an
explicit concrete run), `LangGraphToVercelAdapter.stream` emits the error
event and stops — the `[DONE]` sentinel never follows, contradicting the
claim that the sequence ends with the error event followed by `Done`. -/
theorem error_run_no_done_counterexample :
    adapterStream (.errorAfter [] "boom") 0 = [.errorEvent "boom"] ∧
    WireEvent.done ∉ adapterStream (.errorAfter [] "boom") 0 := by
  refine ⟨rfl, ?_⟩
  intro h
  simp [adapterStream, processUpdates] at h

/-- C3 amended: on an engine error, `LangGraphToVercelAdapter.stream`
ends with exactly one error event carrying the message and nothing after
it — but no `Done` sentinel — while `vercel_stream`'s
`stream_langgraph_to_vercel` ends with exactly one error event followed
by the `Done` sentinel; in both, no error event occurs earlier in the
sequence. -/
theorem error_run_terminal_events :
    ∀ (us : List StateUpdate) (msg : String) (ctr : Nat) (mode : VsMode)
      (items : List VsEvent),
      (∃ events, adapterStream (.errorAfter us msg) ctr
          = events ++ [.errorEvent msg] ∧
        (∀ m, WireEvent.errorEvent m ∉ events) ∧
        WireEvent.done ∉ events) ∧
      (∃ events, vsStream mode (.err items msg)
          = events ++ [.errorEvent msg, .done] ∧
        ∀ m, WireEvent.errorEvent m ∉ events) := by
  intro us msg ctr mode items
  constructor
  · refine ⟨(processUpdates us ctr).1, rfl, ?_, ?_⟩
    · intro m hm
      have := mem_processUpdates us ctr _ hm
      simp [WireEvent.isControl] at this
    · intro hd
      have := mem_processUpdates us ctr _ hd
      simp [WireEvent.isControl] at this
  · refine ⟨WireEvent.start (.fresh 0) ::
      (vsLoop mode items false none).events, rfl, ?_⟩
    intro m hm
    rcases List.mem_cons.mp hm with h' | h'
    · simp at h'
    · rcases mem_vsLoop_events mode items false none _ h' with
        ⟨i, h2⟩ | ⟨i, s, h2⟩ <;> simp at h2

/-- C8 (engine behaviour spec-modelled): a `resume=true` request against
a thread id whose stored status is not `Suspended` — completed, running,
or never seen — makes the run fail with a defined `EngineError`; it never
returns an `ok` outcome, so it cannot silently no-op. -/
theorem resume_non_suspended_fails :
    ∀ (store : List (String × ThreadStatus)) (message threadId : String)
      (executeRun : List Message → String → RunOutcome)
      (continueRun : String → String → RunOutcome),
      (∀ p, store.lookup threadId ≠ some (.suspendedAt p)) →
      ∃ err : EngineError,
        travelSystemRun store message threadId true executeRun continueRun
          = .error err := by
  intro store message threadId ex cont h
  have hrun : travelSystemRun store message threadId true ex cont
      = engineResume store threadId message cont := rfl
  rw [hrun]
  unfold engineResume
  rcases hl : store.lookup threadId with _ | st
  · exact ⟨_, rfl⟩
  · rcases st with _ | p | _
    · exact ⟨_, rfl⟩
    · exact absurd hl (h p)
    · exact ⟨_, rfl⟩

/-- C8 witness: resuming the already-completed thread `"t1"` fails with a
defined error. -/
theorem resume_non_suspended_fails_witness :
    ∃ err : EngineError,
      travelSystemRun [("t1", ThreadStatus.completed)] "hello" "t1" true
        (fun _ _ => RunOutcome.completedOutcome .vnull)
        (fun _ _ => RunOutcome.completedOutcome .vnull) = .error err :=
  resume_non_suspended_fails _ _ _ _ _ (by intro p hp; simp [List.lookup] at hp)

/-- C9: every failure of the underlying HTTP capability call — a request
exception or any other exception — makes `search_flight_availability`
return the structured result tagged with an `error` field (and a
successful call yields no error tag); the function is total, so no
failure is raised past the tool boundary. -/
theorem flight_search_failure_tagged :
    ∀ (origin destination msg : String),
      (search_flight_availability origin destination
          (.requestException msg)).error = some msg ∧
      (search_flight_availability origin destination
          (.otherException msg)).error = some "An internal error occurred." ∧
      ∀ flights, (search_flight_availability origin destination
          (.success flights)).error = none := by
  intro origin destination msg
  refine ⟨rfl, rfl, ?_⟩
  intro flights
  unfold search_flight_availability
  dsimp only
  split <;> rfl

theorem dataEvents_congr (u v : StateUpdate)
    (hr : u.requirements = v.requirements) (hi : u.itinerary = v.itinerary)
    (hb : u.bookings = v.bookings) : dataEvents u = dataEvents v := by
  unfold dataEvents
  rw [hr, hi, hb]

theorem aiMessageEvents_congr (u v : StateUpdate) (content : String)
    (toolCalls : List ToolCallRec) (ctr : Nat)
    (hr : u.requirements = v.requirements) (hi : u.itinerary = v.itinerary)
    (hb : u.bookings = v.bookings) :
    aiMessageEvents u content toolCalls ctr
      = aiMessageEvents v content toolCalls ctr := by
  unfold aiMessageEvents
  rw [dataEvents_congr u v hr hi hb]

/-- C10: for a non-interrupt update carrying a messages list,
`_handle_node_update` depends only on the list's final entry — two
updates differing only in the earlier entries translate to exactly the
same wire events (entries before the last produce nothing). -/
theorem adapter_inspects_only_last_message :
    ∀ (u : StateUpdate) (earlier₁ earlier₂ : List Message) (m : Message)
      (ctr : Nat),
      u.interrupt = none →
      handleNodeUpdate { u with messages := some (earlier₁ ++ [m]) } ctr
        = handleNodeUpdate { u with messages := some (earlier₂ ++ [m]) } ctr := by
  intro u e1 e2 m ctr h
  unfold handleNodeUpdate
  simp only [h, List.getLast?_concat]
  cases m with
  | human c => rfl
  | tool a b => rfl
  | ai content name calls =>
      dsimp only
      exact aiMessageEvents_congr _ _ content calls ctr rfl rfl rfl

/-- C10 witness: dropping the two earlier entries of a three-entry update
leaves the translation unchanged. -/
theorem adapter_inspects_only_last_message_witness :
    handleNodeUpdate
      { interrupt := none,
        messages := some ([Message.human "hi", Message.ai "draft" none []]
          ++ [Message.tool "c1" "out"]),
        requirements := some (.vstr "r"), itinerary := none,
        bookings := none } 0
      = handleNodeUpdate
        { interrupt := none,
          messages := some ([] ++ [Message.tool "c1" "out"]),
          requirements := some (.vstr "r"), itinerary := none,
          bookings := none } 0 :=
  adapter_inspects_only_last_message
    { interrupt := none, messages := none,
      requirements := some (.vstr "r"), itinerary := none, bookings := none }
    [Message.human "hi", Message.ai "draft" none []] []
    (Message.tool "c1" "out") 0 rfl

/-- C1 counterexample: a concrete run whose engine yields an interrupt
update followed by a further message update.  The adapter emits the
interrupt text block and `finish{finishReason:"interrupt"}` — and then
keeps consuming: the text block derived from the further update (ids
`fresh 1`) appears after the interrupt's finish event, and the loop even
appends a second, plain `finish` and the sentinel.  This refutes the
claim's "and thereafter emits no events derived from further updates of
that call (it stops consuming)". -/
theorem interrupt_keeps_consuming_counterexample :
    adapterStream (.updates
      [{ interrupt := some [⟨"Need dates"⟩] },
       { messages := some [.ai "Hello" none []] }]) 0
    = [.textStart (.fresh 0), .textDelta (.fresh 0) "Need dates",
       .textEnd (.fresh 0), .finish (some "interrupt"),
       .textStart (.fresh 1), .textDelta (.fresh 1) "Hello",
       .textEnd (.fresh 1), .finish none, .done] := rfl

/-- C1 amended: for an update signalling an interrupt whose payload text
is non-empty, the adapter emits for that update exactly
`text-start`/`text-delta(text)`/`text-end` under one fresh id and then
`finish{finishReason:"interrupt"}`, and processes nothing else of that
update; but it does not stop consuming — the events of any subsequent
updates of the same call are still emitted after it (second conjunct). -/
theorem interrupt_update_events :
    ∀ (o : InterruptObj) (rest : List InterruptObj) (u : StateUpdate)
      (ctr : Nat),
      u.interrupt = some (o :: rest) → o.value ≠ "" →
      (handleNodeUpdate u ctr
        = ([.textStart (.fresh ctr), .textDelta (.fresh ctr) o.value,
            .textEnd (.fresh ctr), .finish (some "interrupt")], ctr + 1)) ∧
      ∀ us, adapterStream (.updates (u :: us)) ctr
        = (handleNodeUpdate u ctr).1
          ++ adapterStream (.updates us) (handleNodeUpdate u ctr).2 := by
  intro o rest u ctr h hv
  constructor
  · unfold handleNodeUpdate
    rw [h]
    unfold handleInterrupt
    dsimp only
    split
    · rfl
    · rename_i hfalse
      simp at hfalse
      exact absurd hfalse hv
  · intro us
    have hp : processUpdates (u :: us) ctr
        = ((handleNodeUpdate u ctr).1
            ++ (processUpdates us (handleNodeUpdate u ctr).2).1,
           (processUpdates us (handleNodeUpdate u ctr).2).2) := rfl
    unfold adapterStream
    dsimp only
    rw [hp]
    dsimp only
    rw [List.append_assoc]

/-- C1 witness: a concrete interrupt update with payload text
`"Need dates"` translates to exactly the four events of the amended
claim. -/
theorem interrupt_update_events_witness :
    handleNodeUpdate { interrupt := some [⟨"Need dates"⟩] } 0
      = ([.textStart (.fresh 0), .textDelta (.fresh 0) "Need dates",
          .textEnd (.fresh 0), .finish (some "interrupt")], 1) :=
  (interrupt_update_events ⟨"Need dates"⟩ []
    { interrupt := some [⟨"Need dates"⟩] } 0 rfl (by decide)).1

/-- The message section of `_handle_node_update` falls through to the
data-field section iff the update has no messages key, the list is empty,
or the last message is an `AIMessage` (a `ToolMessage` or a non-AI
message makes the handler return early). -/
def lastMessageFallsThrough (u : StateUpdate) : Bool :=
  match u.messages with
  | none => true
  | some ms =>
    match ms.getLast? with
    | none => true
    | some m => m.isAi

/-- C4 counterexample: an update whose last message is a tool result and
which also carries a non-empty `requirements` field emits only the
`tool-output-available` event — the `data-requirements` event is skipped,
refuting the claim that every present non-empty named extension field of
a non-suspension update yields a data event. -/
theorem data_events_skipped_counterexample :
    handleNodeUpdate
      { messages := some [.tool "call-1" "out"],
        requirements := some (.vstr "req") } 0
      = ([.toolOutputAvailable "call-1" "out"], 0) ∧
    WireEvent.dataEvent "requirements" (.vstr "req")
      ∉ (handleNodeUpdate
          { messages := some [.tool "call-1" "out"],
            requirements := some (.vstr "req") } 0).1 := by
  constructor
  · rfl
  · intro h
    have hred : (handleNodeUpdate
        { messages := some [.tool "call-1" "out"],
          requirements := some (.vstr "req") } 0).1
        = [WireEvent.toolOutputAvailable "call-1" "out"] := rfl
    rw [hred] at h
    simp at h

/-- C4 amended: the adapter emits one `data-<field>` event per present
and truthy field (requirements, itinerary, bookings, in that order), after
all message-derived events of the same update — but only when the message
section falls through (no messages, an empty list, or a last message that
is an `AIMessage`); when the last message is a tool result or a non-AI
message, the handler returns early and no data event is emitted at
all. -/
theorem data_events_after_message_events :
    ∀ (u : StateUpdate) (ctr : Nat),
      u.interrupt = none →
      (lastMessageFallsThrough u = true →
        ∃ messageEvents ctr',
          handleNodeUpdate u ctr = (messageEvents ++ dataEvents u, ctr') ∧
          ∀ f v, WireEvent.dataEvent f v ∉ messageEvents) ∧
      (lastMessageFallsThrough u = false →
        ∀ f v, WireEvent.dataEvent f v ∉ (handleNodeUpdate u ctr).1) := by
  intro u ctr h
  unfold handleNodeUpdate lastMessageFallsThrough
  rw [h]
  dsimp only
  rcases hm : u.messages with _ | ms <;> try dsimp only
  · constructor
    · intro
      exact ⟨[], ctr, rfl, by intro f v hv; simp at hv⟩
    · intro hfalse; cases hfalse
  · rcases hl : ms.getLast? with _ | m <;> try dsimp only
    · constructor
      · intro
        exact ⟨[], ctr, rfl, by intro f v hv; simp at hv⟩
      · intro hfalse; cases hfalse
    · rcases m with mc | ⟨content, name, calls⟩ | ⟨tid, out⟩ <;>
        try dsimp only
      · constructor
        · intro hT; cases hT
        · intro
          intro f v hv
          simp at hv
      · constructor
        · intro
          unfold aiMessageEvents
          dsimp only
          generalize htp : (if (!calls.isEmpty) = true
              then handleToolCalls calls ctr else ([], ctr)) = toolPart
          generalize htx : (if (content != "" && pyStrip content != "") = true
              then textBlock content toolPart.2
              else ([], toolPart.2)) = textPart
          refine ⟨toolPart.1 ++ textPart.1, textPart.2,
            by rw [List.append_assoc], ?_⟩
          intro f v hv
          rcases List.mem_append.mp hv with h' | h'
          · rw [← htp] at h'
            rcases mem_ite_pair h' with h3 | h3
            · have := (mem_handleToolCalls _ _ _ h3).2
              simp [WireEvent.isData] at this
            · simp at h3
          · rw [← htx] at h'
            rcases mem_ite_pair h' with h3 | h3
            · have := (mem_textBlock _ _ _ h3).2
              simp [WireEvent.isData] at this
            · simp at h3
        · intro hF
          simp [Message.isAi] at hF
      · constructor
        · intro hT; cases hT
        · intro
          intro f v hv
          simp [handleToolResult] at hv

/-- C4 witness: an AI-message update with a truthy `requirements` field
decomposes into its message events followed by the data events. -/
theorem data_events_after_message_events_witness :
    ∃ messageEvents ctr',
      handleNodeUpdate
        { messages := some [.ai "Hi" none []],
          requirements := some (.vstr "r") } 0
        = (messageEvents
            ++ dataEvents { messages := some [.ai "Hi" none []],
                            requirements := some (.vstr "r") }, ctr') ∧
      ∀ f v, WireEvent.dataEvent f v ∉ messageEvents :=
  (data_events_after_message_events
    { messages := some [.ai "Hi" none []],
      requirements := some (.vstr "r") } 0 rfl).1 rfl

theorem handleToolCalls_with_ids :
    ∀ (calls : List ToolCallRec) (ctr : Nat),
      (∀ tc ∈ calls, ∃ s, tc.id = some s ∧ s ≠ "") →
      handleToolCalls calls ctr
        = (calls.bind (fun tc =>
            [WireEvent.toolInputStart (tc.id.getD "") (resolveToolName tc),
             WireEvent.toolInputAvailable (tc.id.getD "") (resolveToolName tc)
               (resolveToolArgs tc)]), ctr) := by
  intro calls
  induction calls with
  | nil => intro ctr _; rfl
  | cons tc rest ih =>
      intro ctr h
      rcases h tc (List.mem_cons_self _ _) with ⟨s, hs, hne⟩
      have hrest : ∀ x ∈ rest, ∃ s, x.id = some s ∧ s ≠ "" :=
        fun x hx => h x (List.mem_cons_of_mem _ hx)
      have hsne : (s != "") = true := by simp [hne]
      have hres : resolveToolCallId tc ctr = (s, ctr) := by
        unfold resolveToolCallId
        rw [hs]
        dsimp only
        rw [if_pos hsne]
      unfold handleToolCalls
      dsimp only
      rw [hres, ih ctr hrest]
      simp [hs]

/-- C6: for an update whose last entry is an agent message with pending
tool calls (each carrying a declared non-empty id), the adapter first
emits, for each call in declared order, `tool-input-start` then
`tool-input-available` with that call's toolCallId, toolName and
arguments; and for an update whose last entry is a tool result, it emits
exactly one `tool-output-available` carrying that result's toolCallId and
output. -/
theorem tool_call_and_result_events :
    ∀ (u : StateUpdate) (ctr : Nat) (ms : List Message),
      u.interrupt = none → u.messages = some ms →
      ((∀ content name calls,
          ms.getLast? = some (.ai content name calls) →
          calls ≠ [] →
          (∀ tc ∈ calls, ∃ s, tc.id = some s ∧ s ≠ "") →
          ∃ rest, (handleNodeUpdate u ctr).1
            = calls.bind (fun tc =>
                [WireEvent.toolInputStart (tc.id.getD "")
                   (resolveToolName tc),
                 WireEvent.toolInputAvailable (tc.id.getD "")
                   (resolveToolName tc) (resolveToolArgs tc)]) ++ rest) ∧
       (∀ toolCallId output,
          ms.getLast? = some (.tool toolCallId output) →
          handleNodeUpdate u ctr
            = ([.toolOutputAvailable toolCallId output], ctr))) := by
  intro u ctr ms hi hm
  constructor
  · intro content name calls hl hne hids
    unfold handleNodeUpdate
    rw [hi]; dsimp only
    rw [hm]; dsimp only
    rw [hl]; dsimp only
    unfold aiMessageEvents
    dsimp only
    have hcalls : (!calls.isEmpty) = true := by
      simp [List.isEmpty_iff]
      exact hne
    rw [if_pos hcalls, handleToolCalls_with_ids calls ctr hids]
    dsimp only
    rw [List.append_assoc]
    exact ⟨_, rfl⟩
  · intro tid out hl
    unfold handleNodeUpdate
    rw [hi]; dsimp only
    rw [hm]; dsimp only
    rw [hl]; dsimp only
    rfl

/-- C6 witness: a single flight-search tool call produces its
input-start/input-available pair, and a tool-result update produces its
single output event. -/
theorem tool_call_and_result_events_witness :
    (∃ rest, (handleNodeUpdate
        { messages := some [.ai "" none
            [⟨some "call-1", some "search_flight_availability",
              some (.vobj [("origin", .vstr "NRT")])⟩]] } 0).1
      = ([⟨some "call-1", some "search_flight_availability",
            some (.vobj [("origin", .vstr "NRT")])⟩] :
          List ToolCallRec).bind
          (fun tc =>
            [WireEvent.toolInputStart (tc.id.getD "") (resolveToolName tc),
             WireEvent.toolInputAvailable (tc.id.getD "")
               (resolveToolName tc) (resolveToolArgs tc)]) ++ rest) ∧
    handleNodeUpdate { messages := some [.tool "call-1" "result"] } 0
      = ([.toolOutputAvailable "call-1" "result"], 0) := by
  constructor
  · exact (tool_call_and_result_events _ 0
      [.ai "" none [⟨some "call-1", some "search_flight_availability",
        some (.vobj [("origin", .vstr "NRT")])⟩]] rfl rfl).1 "" none _ rfl
      (List.cons_ne_nil _ _)
      (by intro tc htc
          simp at htc
          subst htc
          exact ⟨"call-1", rfl, by decide⟩)
  · exact (tool_call_and_result_events _ 0 [.tool "call-1" "result"]
      rfl rfl).2 "call-1" "result" rfl

/-! ## Distinctness of text-block ids (C5) -/

/-- The ids of the `text-start` events of a wire sequence, in order: one
per text block opened. -/
def textStartIds : List WireEvent → List StreamId
  | [] => []
  | .textStart i :: rest => i :: textStartIds rest
  | .start _ :: rest => textStartIds rest
  | .textDelta _ _ :: rest => textStartIds rest
  | .textEnd _ :: rest => textStartIds rest
  | .toolInputStart _ _ :: rest => textStartIds rest
  | .toolInputAvailable _ _ _ :: rest => textStartIds rest
  | .toolOutputAvailable _ _ :: rest => textStartIds rest
  | .dataEvent _ _ :: rest => textStartIds rest
  | .finish _ :: rest => textStartIds rest
  | .finishMeta _ _ :: rest => textStartIds rest
  | .errorEvent _ :: rest => textStartIds rest
  | .done :: rest => textStartIds rest

theorem textStartIds_append (a b : List WireEvent) :
    textStartIds (a ++ b) = textStartIds a ++ textStartIds b := by
  induction a with
  | nil => rfl
  | cons e rest ih => cases e <;> simp [textStartIds, ih]

theorem resolveToolCallId_ctr_le (tc : ToolCallRec) (c : Nat) :
    c ≤ (resolveToolCallId tc c).2 := by
  unfold resolveToolCallId
  rcases htc : tc.id with _ | s
  · exact Nat.le_succ c
  · dsimp only
    split
    · exact Nat.le_refl c
    · exact Nat.le_succ c

theorem handleToolCalls_ctr_le (calls : List ToolCallRec) (c : Nat) :
    c ≤ (handleToolCalls calls c).2 := by
  induction calls generalizing c with
  | nil => exact Nat.le_refl c
  | cons tc rest ih =>
      unfold handleToolCalls
      dsimp only
      exact Nat.le_trans (resolveToolCallId_ctr_le tc c) (ih _)

theorem handleToolCalls_textStartIds (calls : List ToolCallRec) (c : Nat) :
    textStartIds (handleToolCalls calls c).1 = [] := by
  induction calls generalizing c with
  | nil => rfl
  | cons tc rest ih =>
      unfold handleToolCalls
      dsimp only
      simp [textStartIds, ih]

theorem textStartIds_dataFieldEvents (f : String) (o : Option Val) :
    textStartIds (dataFieldEvents f o) = [] := by
  rcases o with _ | v
  · rfl
  · unfold dataFieldEvents
    dsimp only
    split <;> rfl

theorem textStartIds_dataEvents (u : StateUpdate) :
    textStartIds (dataEvents u) = [] := by
  unfold dataEvents
  simp [textStartIds_append, textStartIds_dataFieldEvents]

/-- Fresh-id discipline of one update's translation: the counter never
decreases, every `text-start` id is a fresh token drawn inside the
update's counter window, and one update opens at most one text block. -/
theorem handleNodeUpdate_fresh (u : StateUpdate) (c : Nat) :
    c ≤ (handleNodeUpdate u c).2 ∧
    (∀ i ∈ textStartIds (handleNodeUpdate u c).1,
      ∃ n, i = .fresh n ∧ c ≤ n ∧ n < (handleNodeUpdate u c).2) ∧
    (textStartIds (handleNodeUpdate u c).1).Nodup := by
  unfold handleNodeUpdate
  rcases hi : u.interrupt with _ | il <;> try dsimp only
  · rcases hm : u.messages with _ | ms <;> try dsimp only
    · refine ⟨Nat.le_refl c, ?_, ?_⟩ <;> simp [textStartIds_dataEvents]
    · rcases hl : ms.getLast? with _ | m <;> try dsimp only
      · refine ⟨Nat.le_refl c, ?_, ?_⟩ <;> simp [textStartIds_dataEvents]
      · rcases m with mc | ⟨content, name, calls⟩ | ⟨tid, out⟩ <;>
          try dsimp only
        · exact ⟨Nat.le_refl c, by simp [textStartIds], by simp [textStartIds]⟩
        · unfold aiMessageEvents
          dsimp only
          generalize htp : (if (!calls.isEmpty) = true
              then handleToolCalls calls c else ([], c)) = toolPart
          have htp2 : c ≤ toolPart.2 := by
            rw [← htp]
            split
            · exact handleToolCalls_ctr_le calls c
            · exact Nat.le_refl c
          have htp1 : textStartIds toolPart.1 = [] := by
            rw [← htp]
            split
            · exact handleToolCalls_textStartIds calls c
            · rfl
          by_cases htxt : (content != "" && pyStrip content != "") = true
          · rw [if_pos htxt]
            unfold textBlock
            dsimp only
            refine ⟨Nat.le_trans htp2 (Nat.le_succ _), ?_, ?_⟩
            · intro i hmem
              rw [textStartIds_append, textStartIds_append, htp1,
                textStartIds_dataEvents] at hmem
              simp [textStartIds] at hmem
              exact ⟨toolPart.2, hmem, htp2, Nat.lt_succ_self _⟩
            · rw [textStartIds_append, textStartIds_append, htp1,
                textStartIds_dataEvents]
              simp [textStartIds]
          · rw [if_neg htxt]
            dsimp only
            refine ⟨htp2, ?_, ?_⟩
            · intro i hmem
              rw [textStartIds_append, textStartIds_append, htp1,
                textStartIds_dataEvents] at hmem
              simp [textStartIds] at hmem
            · rw [textStartIds_append, textStartIds_append, htp1,
                textStartIds_dataEvents]
              simp [textStartIds]
        · exact ⟨Nat.le_refl c, by simp [textStartIds, handleToolResult],
            by simp [textStartIds, handleToolResult]⟩
  · unfold handleInterrupt
    rcases il with _ | ⟨o, rest⟩ <;> try dsimp only
    · refine ⟨Nat.le_refl c, ?_, ?_⟩ <;> simp [textStartIds]
    · by_cases hv : o.value = ""
      · rw [if_neg (by simp [hv])]
        refine ⟨Nat.le_refl c, ?_, ?_⟩ <;> simp [textStartIds]
      · rw [if_pos (by simp [hv])]
        refine ⟨Nat.le_succ c, ?_, ?_⟩
        · intro i hmem
          simp [textStartIds] at hmem
          exact ⟨c, hmem, Nat.le_refl c, Nat.lt_succ_self c⟩
        · simp [textStartIds]

theorem processUpdates_fresh (us : List StateUpdate) (c : Nat) :
    c ≤ (processUpdates us c).2 ∧
    (∀ i ∈ textStartIds (processUpdates us c).1,
      ∃ n, i = .fresh n ∧ c ≤ n ∧ n < (processUpdates us c).2) ∧
    (textStartIds (processUpdates us c).1).Nodup := by
  induction us generalizing c with
  | nil =>
      refine ⟨Nat.le_refl c, ?_, ?_⟩ <;> simp [processUpdates, textStartIds]
  | cons u rest ih =>
      obtain ⟨h1, h2, h3⟩ := handleNodeUpdate_fresh u c
      obtain ⟨g1, g2, g3⟩ := ih (handleNodeUpdate u c).2
      unfold processUpdates
      dsimp only
      rw [textStartIds_append]
      refine ⟨Nat.le_trans h1 g1, ?_, ?_⟩
      · intro i hmem
        rcases List.mem_append.mp hmem with h' | h'
        · rcases h2 i h' with ⟨n, hn, hcn, hlt⟩
          exact ⟨n, hn, hcn, Nat.lt_of_lt_of_le hlt g1⟩
        · rcases g2 i h' with ⟨n, hn, hcn, hlt⟩
          exact ⟨n, hn, Nat.le_trans h1 hcn, hlt⟩
      · refine List.Nodup.append h3 g3 ?_
        intro i hi1 hi2
        rcases h2 i hi1 with ⟨n, hn, _, hlt⟩
        rcases g2 i hi2 with ⟨n', hn', hcn', _⟩
        rw [hn] at hn'
        have : n = n' := by injection hn'
        subst this
        exact absurd hcn' (Nat.not_le_of_lt hlt)

/-- One loop iteration of `stream_langgraph_to_vercel` opens a text block
only when `text_started` is still false, and sets the flag when it does:
once started, no later `text-start` is ever emitted. -/
theorem vsStepOf_textStart (mode : VsMode) (started : Bool)
    (fs : Option StateUpdate) (item : VsEvent) :
    (started = true → (vsStepOf mode started fs item).textStarted = true ∧
      textStartIds (vsStepOf mode started fs item).events = []) ∧
    (textStartIds (vsStepOf mode started fs item).events = [] ∨
      (started = false ∧ (vsStepOf mode started fs item).textStarted = true ∧
       textStartIds (vsStepOf mode started fs item).events
         = [.fixed "text-1"])) := by
  rcases item with content | u
  · rcases mode <;> rcases started <;>
      simp [vsStepOf, vsMaybeStart, textStartIds] <;>
      split <;> simp [textStartIds]
  · unfold vsStepOf
    dsimp only
    rcases hiu : u.interrupt with _ | iv
    · rcases mode
      · rcases started
        · exact ⟨fun h => Bool.noConfusion h, Or.inl rfl⟩
        · exact ⟨fun _ => ⟨rfl, rfl⟩, Or.inl rfl⟩
      all_goals {
        rcases hl : (u.messages.getD []).getLast? with _ | m
        · rcases started
          · exact ⟨fun h => Bool.noConfusion h, Or.inl rfl⟩
          · exact ⟨fun _ => ⟨rfl, rfl⟩, Or.inl rfl⟩
        · rcases started <;>
            by_cases hcm : (m.contentStr != "" && m.isAi) = true <;>
            simp [hcm, vsMaybeStart, textStartIds] }
    · rcases started <;> simp [vsMaybeStart, textStartIds]

/-- Across the whole loop, at most one text block is opened, always under
the fixed id `"text-1"`; a loop entered with `text_started = true` opens
none. -/
theorem vsLoop_textStart (mode : VsMode) (items : List VsEvent) :
    ∀ (started : Bool) (fs : Option StateUpdate),
    (started = true →
      textStartIds (vsLoop mode items started fs).events = []) ∧
    (textStartIds (vsLoop mode items started fs).events = [] ∨
     textStartIds (vsLoop mode items started fs).events
       = [.fixed "text-1"]) := by
  induction items with
  | nil => intro started fs; exact ⟨fun _ => rfl, Or.inl rfl⟩
  | cons item rest ih =>
      intro started fs
      unfold vsLoop
      dsimp only
      obtain ⟨s1, s2⟩ := vsStepOf_textStart mode started fs item
      split
      · refine ⟨fun h => (s1 h).2, ?_⟩
        rcases s2 with h | ⟨_, _, h⟩
        · exact Or.inl h
        · exact Or.inr h
      · dsimp only
        rw [textStartIds_append]
        obtain ⟨r1, r2⟩ := ih (vsStepOf mode started fs item).textStarted
          (vsStepOf mode started fs item).finalState
        constructor
        · intro h
          rw [(s1 h).2, r1 (s1 h).1]
          rfl
        · rcases s2 with hs | ⟨hs0, hs1, hs2⟩
          · rw [hs]
            simp only [List.nil_append]
            exact r2
          · rw [hs2, r1 hs1]
            exact Or.inr rfl

/-- C5: within any single run, text-block ids are never reused.
`LangGraphToVercelAdapter.stream` draws a fresh id for every block
(`_create_message_id`), so the `text-start` ids of a whole run are
pairwise distinct; `vercel_stream.stream_langgraph_to_vercel` opens at
most one text block per run (under the constant id `"text-1"`), so its
per-run `text-start` ids are trivially distinct as well. -/
theorem text_block_ids_distinct :
    ∀ (run : RunInput) (ctr : Nat) (mode : VsMode) (vrun : VsRun),
      (textStartIds (adapterStream run ctr)).Nodup ∧
      (textStartIds (vsStream mode vrun)).Nodup := by
  intro run ctr mode vrun
  constructor
  · rcases run with us | ⟨us, msg⟩ <;> unfold adapterStream <;>
      rw [textStartIds_append] <;>
      simp [textStartIds] <;>
      exact (processUpdates_fresh us ctr).2.2
  · rcases vrun with items | ⟨items, msg⟩ <;> unfold vsStream <;> dsimp only
    · have h2 : textStartIds
          (if (vsLoop mode items false none).textStarted = true
           then [WireEvent.textEnd (.fixed "text-1")] else []) = [] := by
        split <;> rfl
      have h3 : textStartIds
          (if (!(vsLoop mode items false none).interrupted) = true then
             match (vsLoop mode items false none).finalState with
             | some u => dataEvents u
             | none => []
           else []) = [] := by
        split
        · split
          · exact textStartIds_dataEvents _
          · rfl
        · rfl
      have h4 : textStartIds
          [(if (vsLoop mode items false none).interrupted = true
            then WireEvent.finishMeta true
              (vsLoop mode items false none).interruptMessage
            else WireEvent.finish none), .done] = [] := by
        split <;> rfl
      rw [textStartIds_append, textStartIds_append, textStartIds_append,
        textStartIds_append, h2, h3, h4]
      simp only [List.append_nil]
      rcases (vsLoop_textStart mode items false none).2 with h | h <;>
        rw [h] <;> simp [textStartIds]
    · rw [textStartIds_append, textStartIds_append]
      simp [textStartIds]
      rcases (vsLoop_textStart mode items false none).2 with h | h <;>
        rw [h] <;> simp

/-! ## Sub-workflow thread derivation and resume routing (C7) -/

/-- A concrete nested requirements graph for closed runs: the initial
invocation suspends asking for travel dates; the resume invocation
completes with an (empty) requirements dict. -/
def demoSub : SubInput → SubResult
  | .invokeState _ => ⟨some [⟨"What are your travel dates?"⟩], none⟩
  | .resumeCmd _ => ⟨none, some (.vobj [])⟩

/-- C7 counterexample: resuming the parent (resume value `"June 5"`) at
the sub-workflow node replays the wrapper body from scratch — the nested
call trace begins with the re-executed initial
`requirements_graph.invoke(subgraph_state, ...)` before the
`Command(resume=...)` call — contradicting "rather than replaying the
sub-workflow node's wrapper logic from scratch"; and the derived thread
id is `"t1-requirements"`, which is not the parent id joined with the
node's name (`"requirements_subgraph"`, the key under which
`add_node` registers the wrapper). -/
theorem subworkflow_resume_replays_counterexample :
    (requirements_subgraph_node (some "t1") [] none demoSub ["June 5"]).2
      = [⟨"t1-requirements", .invokeState ⟨[], false, "", none⟩⟩,
         ⟨"t1-requirements", .resumeCmd "June 5"⟩] ∧
    "t1-requirements" ≠ "t1" ++ "-" ++ "requirements_subgraph" := by
  constructor
  · rfl
  · decide

/-- C7 amended: the sub-workflow node derives its nested thread id as the
parent thread id (default `"main-thread"`) joined with `"-requirements"`
— a fixed suffix naming the subgraph, not the node's registry key — and,
on parent resume, first replays the wrapper's initial subgraph invocation
from scratch and then delivers the resume value to the nested engine via
`invoke(Command(resume=value))` under that same derived thread id. -/
theorem subworkflow_resume_routing :
    ∀ (parent : Option String) (msgs : List Message) (reqs : Option Val)
      (sub : SubInput → SubResult) (v : String),
      (sub (.invokeState ⟨msgs, false, "", reqs⟩)).interrupt ≠ none →
      (requirements_subgraph_node parent msgs reqs sub [v]).2
        = [⟨(parent.getD "main-thread") ++ "-requirements",
            .invokeState ⟨msgs, false, "", reqs⟩⟩,
           ⟨(parent.getD "main-thread") ++ "-requirements",
            .resumeCmd v⟩] := by
  intro parent msgs reqs sub v h
  unfold requirements_subgraph_node
  dsimp only
  rcases hint : (sub (.invokeState ⟨msgs, false, "", reqs⟩)).interrupt
    with _ | il
  · exact absurd hint h
  · rcases hint2 : (sub (.resumeCmd v)).interrupt with _ | il2
    · rfl
    · rfl

/-- C7 witness: the concrete resumed run of the wrapper around `demoSub`
routes `"June 5"` to the nested engine under `"t1" ++ "-requirements"`,
after replaying the initial invocation. -/
theorem subworkflow_resume_routing_witness :
    (requirements_subgraph_node (some "t1") [] none demoSub ["June 5"]).2
      = [⟨((some "t1").getD "main-thread") ++ "-requirements",
          .invokeState ⟨[], false, "", none⟩⟩,
         ⟨((some "t1").getD "main-thread") ++ "-requirements",
          .resumeCmd "June 5"⟩] :=
  subworkflow_resume_routing (some "t1") [] none demoSub "June 5"
    (fun hc => Option.noConfusion hc)

end TravelPlanner
